import Mathlib

/-!
# Verification of the Azure Database for PostgreSQL vector-store integration

This file gives a shallow embedding of the code in
`docs/docs/integrations/vectorstores/azure_db_for_postgresql.ipynb`:
the Entra credential helpers (`decode_jwt`, `get_token_and_username`,
`create_postgres_engine`) and the password-authentication URI builder
(`get_connection_uri`), together with models of the library behaviour they
rely on (Python's `base64.urlsafe_b64decode`, `json.loads`,
`urllib.parse.quote`, SQLAlchemy's `do_connect` event dispatch) and — where
the deciding code lives in the external `langchain_postgres` package — models
built from the specification (filter compilation, document upsert,
similarity search).

Theorems `c1_…` through `c10_…` settle the corresponding claims.
-/

set_option autoImplicit false

namespace AzurePG

/-! ## JSON values

Model of the values produced by Python's `json.loads` (and stored in
document metadata): null, booleans, numbers (restricted to integers, which
covers the JWT claims and metadata used here), strings, arrays and objects.
Objects keep their key/value pairs in insertion order, as Python dicts do. -/

inductive JsonVal where
  | null
  | bool (b : Bool)
  | num (n : Int)
  | str (s : String)
  | arr (xs : List JsonVal)
  | obj (fs : List (String × JsonVal))

/-- `d.get k` on a Python dict built by inserting the pairs of `fs` in
order: later bindings of the same key overwrite earlier ones, so lookup
returns the LAST binding. -/
def dictGet (fs : List (String × JsonVal)) (k : String) : Option JsonVal :=
  match fs with
  | [] => none
  | (k', v) :: rest =>
      match dictGet rest k with
      | some w => some w
      | none => if k' = k then some v else none

/-- Python truthiness of a JSON value (`bool(v)`): `None`, `False`, `0`,
`""`, `[]` and `{}` are falsy, everything else truthy. -/
def pyTruthy : JsonVal → Bool
  | .null => false
  | .bool b => b
  | .num n => n != 0
  | .str s => s ≠ ""
  | .arr xs => !xs.isEmpty
  | .obj fs => !fs.isEmpty

/-! ## UTF-8 decoding

`json.loads` accepts `bytes` and decodes them as UTF-8 before parsing.
`utf8Decode` turns a byte list into the corresponding character list,
failing on malformed sequences. -/

def utf8DecodeAux : List Nat → List Char → Option (List Char)
  | [], acc => some acc.reverse
  | b :: rest, acc =>
      if b < 0x80 then
        utf8DecodeAux rest (Char.ofNat b :: acc)
      else if b < 0xC2 then none
      else if b < 0xE0 then
        match rest with
        | b1 :: rest' =>
            if 0x80 ≤ b1 ∧ b1 < 0xC0 then
              utf8DecodeAux rest' (Char.ofNat ((b - 0xC0) * 64 + (b1 - 0x80)) :: acc)
            else none
        | _ => none
      else if b < 0xF0 then
        match rest with
        | b1 :: b2 :: rest' =>
            if 0x80 ≤ b1 ∧ b1 < 0xC0 ∧ 0x80 ≤ b2 ∧ b2 < 0xC0 then
              let cp := (b - 0xE0) * 4096 + (b1 - 0x80) * 64 + (b2 - 0x80)
              if cp < 0x800 ∨ (0xD800 ≤ cp ∧ cp < 0xE000) then none
              else utf8DecodeAux rest' (Char.ofNat cp :: acc)
            else none
        | _ => none
      else if b < 0xF5 then
        match rest with
        | b1 :: b2 :: b3 :: rest' =>
            if 0x80 ≤ b1 ∧ b1 < 0xC0 ∧ 0x80 ≤ b2 ∧ b2 < 0xC0 ∧ 0x80 ≤ b3 ∧ b3 < 0xC0 then
              let cp := (b - 0xF0) * 262144 + (b1 - 0x80) * 4096 + (b2 - 0x80) * 64 + (b3 - 0x80)
              if cp < 0x10000 ∨ 0x110000 ≤ cp then none
              else utf8DecodeAux rest' (Char.ofNat cp :: acc)
            else none
        | _ => none
      else none

def utf8Decode (bs : List Nat) : Option (List Char) :=
  utf8DecodeAux bs []

/-! ## Base64 decoding

Model of `base64.urlsafe_b64decode` as called by `decode_jwt`.
`urlsafe_b64decode` translates `-`/`_` to `+`/`/` and calls `b64decode`
without validation, which is CPython's `binascii.a2b_base64` in
non-strict mode.  `b64val` folds the urlsafe translation into the
alphabet table; `a2b` is the non-strict decoding loop of
`Modules/binascii.c` (CPython 3.11): invalid characters are skipped,
a `=` seen after at least two data characters of the current quad
counts as padding, and a quad position plus accumulated pads reaching 4
ends the decode; at end of input a dangling quad position of 1 means
"data characters cannot be 1 more than a multiple of 4" and positions
2 or 3 mean "Incorrect padding", both errors (`none`). -/

def b64val (c : Char) : Option Nat :=
  if 'A' ≤ c ∧ c ≤ 'Z' then some (c.toNat - 65)
  else if 'a' ≤ c ∧ c ≤ 'z' then some (c.toNat - 97 + 26)
  else if '0' ≤ c ∧ c ≤ '9' then some (c.toNat - 48 + 52)
  else if c = '+' ∨ c = '-' then some 62
  else if c = '/' ∨ c = '_' then some 63
  else none

def a2b : List Char → Nat → Nat → Nat → List Nat → Option (List Nat)
  | [], quadPos, _, _, acc =>
      if quadPos % 4 = 0 then some acc.reverse else none
  | c :: rest, quadPos, leftchar, pads, acc =>
      if c = '=' then
        if 2 ≤ quadPos then
          if 4 ≤ quadPos + (pads + 1) then some acc.reverse
          else a2b rest quadPos leftchar (pads + 1) acc
        else a2b rest quadPos leftchar pads acc
      else
        match b64val c with
        | none => a2b rest quadPos leftchar pads acc
        | some v =>
            match quadPos with
            | 0 => a2b rest 1 v 0 acc
            | 1 => a2b rest 2 (v % 16) 0 ((leftchar * 4 + v / 16) :: acc)
            | 2 => a2b rest 3 (v % 4) 0 ((leftchar * 16 + v / 4) :: acc)
            | _ => a2b rest 0 0 0 ((leftchar * 64 + v) :: acc)

/-- `base64.urlsafe_b64decode(s)`: the bytes decoded from `s`, or `none`
where Python raises `binascii.Error`. -/
def urlsafe_b64decode (s : String) : Option (List Nat) :=
  a2b s.data 0 0 0 []

/-! ## JSON parsing

Model of Python's `json.loads` on the decoded payload bytes, restricted to
the JSON fragment exercised by JWT payloads and document metadata:
`null`, `true`, `false`, integer numbers, strings with the standard
single-character escapes and non-surrogate `\uXXXX` escapes, arrays and
objects.  (Fractional/exponent numbers and surrogate pairs are outside the
model; the parser fails on them.) -/

def isJsonWs (c : Char) : Bool :=
  c = ' ' ∨ c = '\t' ∨ c = '\n' ∨ c = '\r'

def skipWs (cs : List Char) : List Char :=
  cs.dropWhile isJsonWs

def hexVal (c : Char) : Option Nat :=
  if '0' ≤ c ∧ c ≤ '9' then some (c.toNat - 48)
  else if 'a' ≤ c ∧ c ≤ 'f' then some (c.toNat - 97 + 10)
  else if 'A' ≤ c ∧ c ≤ 'F' then some (c.toNat - 65 + 10)
  else none

def parseJsonString : List Char → List Char → Option (String × List Char)
  | [], _ => none
  | c :: rest, acc =>
      if c = '"' then some (String.mk acc.reverse, rest)
      else if c = '\\' then
        match rest with
        | [] => none
        | e :: rest' =>
            if e = '"' then parseJsonString rest' ('"' :: acc)
            else if e = '\\' then parseJsonString rest' ('\\' :: acc)
            else if e = '/' then parseJsonString rest' ('/' :: acc)
            else if e = 'b' then parseJsonString rest' (Char.ofNat 8 :: acc)
            else if e = 'f' then parseJsonString rest' (Char.ofNat 12 :: acc)
            else if e = 'n' then parseJsonString rest' ('\n' :: acc)
            else if e = 'r' then parseJsonString rest' ('\r' :: acc)
            else if e = 't' then parseJsonString rest' ('\t' :: acc)
            else if e = 'u' then
              match rest' with
              | h1 :: h2 :: h3 :: h4 :: rest'' =>
                  match hexVal h1, hexVal h2, hexVal h3, hexVal h4 with
                  | some v1, some v2, some v3, some v4 =>
                      let cp := v1 * 4096 + v2 * 256 + v3 * 16 + v4
                      if 0xD800 ≤ cp ∧ cp < 0xE000 then none
                      else parseJsonString rest'' (Char.ofNat cp :: acc)
                  | _, _, _, _ => none
              | _ => none
            else none
      else if c.toNat < 0x20 then none
      else parseJsonString rest (c :: acc)

def parseDigits : List Char → Nat → Bool → Option (Nat × List Char)
  | [], n, seen => if seen then some (n, []) else none
  | c :: rest, n, seen =>
      if '0' ≤ c ∧ c ≤ '9' then parseDigits rest (n * 10 + (c.toNat - 48)) true
      else if seen then some (n, c :: rest) else none

mutual

def parseJsonVal : Nat → List Char → Option (JsonVal × List Char)
  | 0, _ => none
  | fuel + 1, cs =>
      match skipWs cs with
      | [] => none
      | c :: rest =>
          if c = 'n' then
            match rest with
            | 'u' :: 'l' :: 'l' :: rest' => some (.null, rest')
            | _ => none
          else if c = 't' then
            match rest with
            | 'r' :: 'u' :: 'e' :: rest' => some (.bool true, rest')
            | _ => none
          else if c = 'f' then
            match rest with
            | 'a' :: 'l' :: 's' :: 'e' :: rest' => some (.bool false, rest')
            | _ => none
          else if c = '"' then
            match parseJsonString rest [] with
            | some (s, rest') => some (.str s, rest')
            | none => none
          else if c = '[' then
            match skipWs rest with
            | ']' :: rest' => some (.arr [], rest')
            | _ => parseJsonArr fuel rest []
          else if c = '{' then
            match skipWs rest with
            | '}' :: rest' => some (.obj [], rest')
            | _ => parseJsonObj fuel rest []
          else if c = '-' then
            match parseDigits rest 0 false with
            | some (n, rest') => some (.num (-(n : Int)), rest')
            | none => none
          else if '0' ≤ c ∧ c ≤ '9' then
            match parseDigits (c :: rest) 0 false with
            | some (n, rest') => some (.num (n : Int), rest')
            | none => none
          else none

def parseJsonArr : Nat → List Char → List JsonVal → Option (JsonVal × List Char)
  | 0, _, _ => none
  | fuel + 1, cs, acc =>
      match parseJsonVal fuel cs with
      | none => none
      | some (v, rest) =>
          match skipWs rest with
          | ',' :: rest' => parseJsonArr fuel rest' (v :: acc)
          | ']' :: rest' => some (.arr (v :: acc).reverse, rest')
          | _ => none

def parseJsonObj : Nat → List Char → List (String × JsonVal) →
    Option (JsonVal × List Char)
  | 0, _, _ => none
  | fuel + 1, cs, acc =>
      match skipWs cs with
      | '"' :: rest =>
          match parseJsonString rest [] with
          | none => none
          | some (k, rest') =>
              match skipWs rest' with
              | ':' :: rest'' =>
                  match parseJsonVal fuel rest'' with
                  | none => none
                  | some (v, rest3) =>
                      match skipWs rest3 with
                      | ',' :: rest4 => parseJsonObj fuel rest4 ((k, v) :: acc)
                      | '}' :: rest4 => some (.obj ((k, v) :: acc).reverse, rest4)
                      | _ => none
              | _ => none
      | _ => none

end

/-- `json.loads` on decoded bytes: UTF-8 decode, parse one value, and
require only whitespace afterwards. -/
def json_loads (bs : List Nat) : Option JsonVal :=
  match utf8Decode bs with
  | none => none
  | some cs =>
      match parseJsonVal (cs.length + 1) cs with
      | some (v, rest) => if skipWs rest = [] then some v else none
      | none => none

/-! ## The JWT helpers from the notebook -/

/-- The padding string `"=" * (4 - len(payload) % 4)` computed by
`decode_jwt`.  Note that for a payload whose length is already a multiple
of 4 this is four `'='` characters, not zero. -/
def jwtPadding (payload : String) : String :=
  String.mk (List.replicate (4 - payload.length % 4) '=')

/-- Python's `token.split(".")`: the maximal `'.'`-free segments of the
string, in order (`"a.b.c" -> ["a","b","c"]`, `"" -> [""]`). -/
def pySplitDot : List Char → List Char → List String
  | [], acc => [String.mk acc.reverse]
  | c :: rest, acc =>
      if c = '.' then String.mk acc.reverse :: pySplitDot rest []
      else pySplitDot rest (c :: acc)

def pySplit (s : String) : List String :=
  pySplitDot s.data []

/--
```python
def decode_jwt(token):
    payload = token.split(".")[1]
    padding = "=" * (4 - len(payload) % 4)
    decoded_payload = base64.urlsafe_b64decode(payload + padding)
    return json.loads(decoded_payload)
```
`none` models any of the exceptions the Python raises (`IndexError` when
there is no second segment, `binascii.Error`, `json.JSONDecodeError`). -/
def decode_jwt (token : String) : Option JsonVal :=
  match (pySplit token).get? 1 with
  | none => none
  | some payload =>
      match urlsafe_b64decode (payload ++ jwtPadding payload) with
      | none => none
      | some bs => json_loads bs

/-- The failure mode of `get_token_and_username` after the token has been
obtained: the explicit `ValueError("Could not extract username from
token…")` raised when the `upn` claim is absent or falsy, together with
the uncaught exceptions propagating out of `decode_jwt` (and the
`AttributeError` when the decoded JSON is not an object).  The design
specification names this failure class `ClaimMissingError`. -/
inductive ResolveError where
  | claimMissing
  deriving Repr, DecidableEq

/-- The Entra credential issuer, as seen by this code: `get_credential()`
returns a handle whose `get_token(audience)` produces a bearer token.
`tokens n` is the token string returned by the `n`-th `get_token` call and
`fetches` counts the calls made so far, so that "no further call to the
identity provider" is visible in the embedding. -/
structure TokenCredential where
  tokens : Nat → String
  fetches : Nat

/-- One `get_token` call on the credential. -/
def TokenCredential.getToken (c : TokenCredential) : String × TokenCredential :=
  (c.tokens c.fetches, { c with fetches := c.fetches + 1 })

/-- The pure tail of `get_token_and_username`: everything after the token
string is in hand. -/
def extractUsername (token : String) : Except ResolveError (JsonVal × String) :=
  match decode_jwt token with
  | none => .error .claimMissing
  | some claims =>
      match claims with
      | .obj fs =>
          match dictGet fs "upn" with
          | none => .error .claimMissing
          | some username =>
              if pyTruthy username then .ok (username, token)
              else .error .claimMissing
      | _ => .error .claimMissing

/--
```python
def get_token_and_username():
    token = get_credential().get_token(
        "https://ossrdbms-aad.database.windows.net/.default")
    claims = decode_jwt(token.token)
    username = claims.get("upn")
    if not username:
        raise ValueError("Could not extract username from token. Have you logged in?")
    return username, token.token
```
Threads the credential issuer state so that the number of identity-provider
calls is explicit. -/
def get_token_and_username (c : TokenCredential) :
    Except ResolveError (JsonVal × String) × TokenCredential :=
  let (token, c') := c.getToken
  (extractUsername token, c')

end AzurePG

namespace AzurePG

/-! ## Lemmas about the base64 decoder -/

theorem b64val_ne_pad {c : Char} (h : (b64val c).isSome) : c ≠ '=' := by
  intro heq
  rw [heq] at h
  exact absurd h (by decide)

/-- Processing a run of valid base64 characters whose length completes the
current quad, the four trailing `'='` appended by `decode_jwt` are ignored
by the lenient decoder, and the decode of the run alone succeeds. -/
theorem a2b_pad_eq (cs : List Char) :
    ∀ qp lc pads acc, qp < 4 →
      (∀ c ∈ cs, (b64val c).isSome) → (qp + cs.length) % 4 = 0 →
      a2b (cs ++ List.replicate 4 '=') qp lc pads acc = a2b cs qp lc pads acc ∧
      ∃ out, a2b cs qp lc pads acc = some out := by
  induction cs with
  | nil =>
    intro qp lc pads acc hqp _ hmod
    have hqp0 : qp = 0 := by simp at hmod; omega
    subst hqp0
    exact ⟨rfl, acc.reverse, rfl⟩
  | cons c cs ih =>
    intro qp lc pads acc hqp hall hmod
    have hc : (b64val c).isSome := hall c (by simp)
    have hne : ¬(c = '=') := b64val_ne_pad hc
    obtain ⟨v, hv⟩ := Option.isSome_iff_exists.1 hc
    have hall' : ∀ c' ∈ cs, (b64val c').isSome := fun c' h => hall c' (by simp [h])
    simp only [List.cons_append, a2b, if_neg hne, hv]
    interval_cases qp
    · exact ih 1 v 0 acc (by omega) hall' (by simp at hmod ⊢; omega)
    · exact ih 2 (v % 16) 0 _ (by omega) hall' (by simp at hmod ⊢; omega)
    · exact ih 3 (v % 4) 0 _ (by omega) hall' (by simp at hmod ⊢; omega)
    · exact ih 0 0 0 _ (by omega) hall' (by simp at hmod ⊢; omega)

end AzurePG

namespace AzurePG

/-! ## Characterization of `extractUsername` -/

theorem extractUsername_ok (token : String) (fs : List (String × JsonVal))
    (u : JsonVal) (hdec : decode_jwt token = some (.obj fs))
    (hupn : dictGet fs "upn" = some u) (htr : pyTruthy u = true) :
    extractUsername token = .ok (u, token) := by
  simp [extractUsername, hdec, hupn, htr]

theorem extractUsername_ok_inv (token : String) (u : JsonVal) (t : String)
    (h : extractUsername token = .ok (u, t)) :
    t = token ∧ ∃ fs, decode_jwt token = some (.obj fs) ∧
      dictGet fs "upn" = some u ∧ pyTruthy u = true := by
  unfold extractUsername at h
  rcases hd : decode_jwt token with _ | j <;> rw [hd] at h <;> dsimp only at h
  · exact nomatch h
  · cases j with
    | obj fs =>
      dsimp only at h
      rcases hg : dictGet fs "upn" with _ | u' <;> rw [hg] at h <;> dsimp only at h
      · exact nomatch h
      · by_cases htr : pyTruthy u' = true
        · rw [if_pos htr] at h
          cases h
          exact ⟨rfl, fs, rfl, hg, htr⟩
        · rw [if_neg htr] at h
          exact nomatch h
    | null => exact nomatch h
    | bool b => exact nomatch h
    | num n => exact nomatch h
    | str s => exact nomatch h
    | arr xs => exact nomatch h

end AzurePG

namespace AzurePG

/-- C1: for every bearer token of the form `header.payload.signature` whose
payload segment is base64url-encoded JSON, `get_token_and_username` extracts
the principal by decoding exactly the middle dot-separated segment as
base64url padded to a multiple of 4 characters, JSON-parsing it and reading
the `upn` claim, returning the pair (upn value, original token); the
extraction is pure: exactly one `get_token` call is made and none after it. -/
theorem c1_principal_extraction (c : TokenCredential)
    (fs : List (String × JsonVal)) (u : JsonVal)
    (hdec : decode_jwt (c.tokens c.fetches) = some (.obj fs))
    (hupn : dictGet fs "upn" = some u)
    (htr : pyTruthy u = true) :
    get_token_and_username c =
      (.ok (u, c.tokens c.fetches), { c with fetches := c.fetches + 1 }) ∧
    (∀ tok : String,
      decode_jwt tok =
        ((pySplit tok).get? 1).bind fun payload =>
          (urlsafe_b64decode (payload ++ jwtPadding payload)).bind json_loads) ∧
    (∀ payload : String,
      (payload.length + (jwtPadding payload).length) % 4 = 0) := by
  refine ⟨?_, ?_, ?_⟩
  · have : get_token_and_username c =
        (extractUsername (c.tokens c.fetches), { c with fetches := c.fetches + 1 }) := rfl
    rw [this, extractUsername_ok _ fs u hdec hupn htr]
  · intro tok
    unfold decode_jwt
    rcases (pySplit tok).get? 1 with _ | payload
    · rfl
    · dsimp only [Option.bind]
      rcases urlsafe_b64decode (payload ++ jwtPadding payload) with _ | bs <;> rfl
  · intro payload
    have hlt : payload.length % 4 < 4 := Nat.mod_lt _ (by omega)
    have hlen : (jwtPadding payload).length = 4 - payload.length % 4 := by
      show (List.replicate (4 - payload.length % 4) '=').length = _
      simp
    rw [hlen]
    omega

/-- Witness for C1: a concrete token whose payload is the base64url coding
of the JSON object containing the claim `upn = alice`. -/
theorem c1_principal_extraction_witness :
    get_token_and_username ⟨fun _ => "h.eyJ1cG4iOiJhbGljZSJ9.s", 0⟩ =
      (.ok (.str "alice", "h.eyJ1cG4iOiJhbGljZSJ9.s"),
        ⟨fun _ => "h.eyJ1cG4iOiJhbGljZSJ9.s", 1⟩) :=
  (c1_principal_extraction ⟨fun _ => "h.eyJ1cG4iOiJhbGljZSJ9.s", 0⟩
    [("upn", .str "alice")] (.str "alice") rfl rfl rfl).1

/-- C5: the credential provider's resolve (`get_token_and_username`) fails
with the claim-missing error exactly when the obtained token cannot be
decoded to a JSON object carrying a truthy `upn` claim, and whenever it
returns a pair, the pair is (the token's truthy `upn` claim, the obtained
token) — it never returns a pair with a missing principal. -/
theorem c5_resolve_error_conditions (c : TokenCredential) :
    ((get_token_and_username c).1 = .error .claimMissing ↔
      ¬ ∃ fs u, decode_jwt (c.tokens c.fetches) = some (.obj fs) ∧
        dictGet fs "upn" = some u ∧ pyTruthy u = true) ∧
    (∀ u t, (get_token_and_username c).1 = .ok (u, t) →
      t = c.tokens c.fetches ∧
      ∃ fs, decode_jwt (c.tokens c.fetches) = some (.obj fs) ∧
        dictGet fs "upn" = some u ∧ pyTruthy u = true) := by
  have hfst : (get_token_and_username c).1 = extractUsername (c.tokens c.fetches) := rfl
  constructor
  · rw [hfst]
    constructor
    · intro herr hex
      obtain ⟨fs, u, hdec, hupn, htr⟩ := hex
      rw [extractUsername_ok _ fs u hdec hupn htr] at herr
      exact nomatch herr
    · intro hne
      cases hcase : extractUsername (c.tokens c.fetches) with
      | ok p =>
        obtain ⟨u, t⟩ := p
        obtain ⟨ht, fs, hdec, hupn, htr⟩ := extractUsername_ok_inv _ u t hcase
        exact absurd ⟨fs, u, hdec, hupn, htr⟩ hne
      | error e =>
        cases e
        rfl
  · intro u t hok
    rw [hfst] at hok
    obtain ⟨ht, fs, hdec, hupn, htr⟩ := extractUsername_ok_inv _ u t hok
    exact ⟨ht, fs, hdec, hupn, htr⟩

/-- Witness for C5: the success side evaluated on a concrete token carrying
`upn = alice`. -/
theorem c5_resolve_error_conditions_witness :
    "h.eyJ1cG4iOiJhbGljZSJ9.s" =
      (⟨fun _ => "h.eyJ1cG4iOiJhbGljZSJ9.s", 0⟩ : TokenCredential).tokens 0 ∧
    ∃ fs, decode_jwt "h.eyJ1cG4iOiJhbGljZSJ9.s" = some (.obj fs) ∧
      dictGet fs "upn" = some (.str "alice") ∧ pyTruthy (.str "alice") = true :=
  (c5_resolve_error_conditions ⟨fun _ => "h.eyJ1cG4iOiJhbGljZSJ9.s", 0⟩).2
    (.str "alice") "h.eyJ1cG4iOiJhbGljZSJ9.s" rfl

/-- C9: for a token whose middle segment is valid base64url of length an
exact multiple of 4, `decode_jwt` appends exactly four `'='` characters
(not zero), yet the decode succeeds and yields the same bytes — hence the
same JSON claims — as decoding the segment with no padding appended. -/
theorem c9_overpadding_harmless (token payload : String)
    (hseg : (pySplit token).get? 1 = some payload)
    (hb64 : ∀ ch ∈ payload.data, (b64val ch).isSome)
    (hlen : payload.length % 4 = 0) :
    jwtPadding payload = "====" ∧
    ∃ bs, urlsafe_b64decode (payload ++ jwtPadding payload) = some bs ∧
      urlsafe_b64decode payload = some bs ∧
      decode_jwt token = json_loads bs := by
  have hpad : jwtPadding payload = "====" := by
    rw [jwtPadding, hlen]
    rfl
  refine ⟨hpad, ?_⟩
  obtain ⟨heq, out, hout⟩ := a2b_pad_eq payload.data 0 0 0 [] (by omega) hb64
    (by rw [Nat.zero_add]; exact hlen)
  have hcat : (payload ++ jwtPadding payload).data =
      payload.data ++ List.replicate 4 '=' := by
    rw [hpad]
    cases payload
    rfl
  have hdec : urlsafe_b64decode (payload ++ jwtPadding payload) = some out := by
    rw [urlsafe_b64decode, hcat, heq]
    exact hout
  refine ⟨out, hdec, hout, ?_⟩
  unfold decode_jwt
  rw [hseg]
  dsimp only
  rw [hdec]

/-- Witness for C9: the 20-character payload of the concrete token used for
C1, decoded with and without the four appended pads. -/
theorem c9_overpadding_harmless_witness :
    jwtPadding "eyJ1cG4iOiJhbGljZSJ9" = "====" ∧
    ∃ bs, urlsafe_b64decode ("eyJ1cG4iOiJhbGljZSJ9" ++ jwtPadding "eyJ1cG4iOiJhbGljZSJ9") = some bs ∧
      urlsafe_b64decode "eyJ1cG4iOiJhbGljZSJ9" = some bs ∧
      decode_jwt "h.eyJ1cG4iOiJhbGljZSJ9.s" = json_loads bs :=
  c9_overpadding_harmless "h.eyJ1cG4iOiJhbGljZSJ9.s" "eyJ1cG4iOiJhbGljZSJ9"
    rfl (by decide) rfl

end AzurePG

namespace AzurePG

/-! ## Process environment and configuration errors -/

/-- `os.environ`, the configuration surface of the notebook. -/
def Env := List (String × String)

def envGet : Env → String → Option String
  | [], _ => none
  | (k', v) :: rest, k => if k' = k then some v else envGet rest k

/-- The failure raised by `os.environ[key]` on a missing key (`KeyError`),
which aborts construction before any network attempt; the design
specification names this `ConfigurationError`. -/
inductive ConfigError where
  | configurationError
  deriving Repr, DecidableEq

/-- `os.environ[k]`: the value, or a configuration error when absent. -/
def envGetE (env : Env) (k : String) : Except ConfigError String :=
  match envGet env k with
  | some v => .ok v
  | none => .error .configurationError

/-! ## The SQLAlchemy pieces used by `create_postgres_engine`

`URL.create` stores the given components; `create_engine` wraps the URL
into an engine; `@event.listens_for(engine, "do_connect")` registers a
hook that SQLAlchemy invokes on every new physical connection attempt,
letting it overwrite the connect parameters (`cparams`). -/

structure URLRec where
  drivername : String
  username : String
  password : String
  host : String
  port : String
  database : String

/-- The psycopg connect parameters (`cparams`): a Python dict from
parameter name to value. -/
def CParams := List (String × JsonVal)

/-- Python dict assignment `d[k] = v`: overwrite the existing binding of
`k` or append a new one. -/
def dictSet : List (String × JsonVal) → String → JsonVal → List (String × JsonVal)
  | [], k, v => [(k, v)]
  | (k', v') :: rest, k, v =>
      if k' = k then (k, v) :: rest else (k', v') :: dictSet rest k v

/--
```python
@event.listens_for(engine, "do_connect")
def provide_dynamic_credentials(dialect, conn_rec, cargs, cparams):
    username, token = get_token_and_username()
    cparams["user"] = username
    cparams["password"] = token
```
An error from `get_token_and_username` propagates and the connection
attempt fails. -/
def provide_dynamic_credentials (cred : TokenCredential) (cparams : CParams) :
    Except ResolveError CParams × TokenCredential :=
  match get_token_and_username cred with
  | (.ok (username, token), cred') =>
      (.ok (dictSet (dictSet cparams "user" username) "password" (.str token)), cred')
  | (.error e, cred') => (.error e, cred')

/-- A SQLAlchemy engine: the URL it was created from and the registered
`do_connect` listener, if any. -/
structure SAEngine where
  url : URLRec
  echo : Bool
  doConnect : Option (TokenCredential → CParams →
    Except ResolveError CParams × TokenCredential)

/-- The default connect parameters SQLAlchemy's psycopg dialect derives
from the engine URL before the `do_connect` listeners run. -/
def defaultCParams (url : URLRec) : CParams :=
  [("user", .str url.username), ("password", .str url.password),
   ("host", .str url.host), ("port", .str url.port),
   ("dbname", .str url.database)]

/-- One physical connection attempt: build the default parameters from the
URL, then run the `do_connect` listener (if registered) on them.  Models
SQLAlchemy's documented event dispatch, which fires the listener on every
new physical connection, not once per engine. -/
def establishConnection (e : SAEngine) (cred : TokenCredential) :
    Except ResolveError CParams × TokenCredential :=
  match e.doConnect with
  | none => (.ok (defaultCParams e.url), cred)
  | some hook => hook cred (defaultCParams e.url)

/-- `n` successive physical connection attempts on the same engine,
threading the credential state through. -/
def establishConnections (e : SAEngine) (cred : TokenCredential) :
    Nat → List (Except ResolveError CParams) × TokenCredential
  | 0 => ([], cred)
  | n + 1 =>
      ((establishConnection e cred).1 ::
          (establishConnections e (establishConnection e cred).2 n).1,
        (establishConnections e (establishConnection e cred).2 n).2)

/--
```python
def create_postgres_engine():
    db_url = URL.create(
        drivername="postgresql+psycopg",
        username="",  # This will be replaced dynamically
        password="",  # This will be replaced dynamically
        host=os.environ["DBHOST"],
        port=os.environ.get("DBPORT", 5432),
        database=os.environ["DBNAME"],
    )
    engine = create_engine(db_url, echo=True)
    @event.listens_for(engine, "do_connect")
    def provide_dynamic_credentials(dialect, conn_rec, cargs, cparams):
        ...
    return engine
```
The `KeyError` on a missing `DBHOST`/`DBNAME` is the error case; the
default port 5432 is modelled as its string form. -/
def create_postgres_engine (env : Env) : Except ConfigError SAEngine := do
  let host ← envGetE env "DBHOST"
  let port := (envGet env "DBPORT").getD "5432"
  let database ← envGetE env "DBNAME"
  let db_url : URLRec :=
    { drivername := "postgresql+psycopg", username := "", password := "",
      host := host, port := port, database := database }
  pure { url := db_url, echo := true,
         doConnect := some provide_dynamic_credentials }

/-! ## `get_connection_uri` and `urllib.parse.quote` -/

/-- The characters `urllib.parse.quote` never encodes
(letters, digits, `_.-~`). -/
def isAlwaysSafe (c : Char) : Bool :=
  ('A' ≤ c ∧ c ≤ 'Z') ∨ ('a' ≤ c ∧ c ≤ 'z') ∨ ('0' ≤ c ∧ c ≤ '9') ∨
    c = '_' ∨ c = '.' ∨ c = '-' ∨ c = '~'

def hexDigit (n : Nat) : Char :=
  if n < 10 then Char.ofNat (48 + n) else Char.ofNat (65 + n - 10)

/-- UTF-8 encoding of one character, for percent-encoding. -/
def utf8EncodeChar (c : Char) : List Nat :=
  let n := c.toNat
  if n < 0x80 then [n]
  else if n < 0x800 then [0xC0 + n / 64, 0x80 + n % 64]
  else if n < 0x10000 then [0xE0 + n / 4096, 0x80 + n / 64 % 64, 0x80 + n % 64]
  else [0xF0 + n / 262144, 0x80 + n / 4096 % 64, 0x80 + n / 64 % 64,
    0x80 + n % 64]

def percentByte (b : Nat) : List Char :=
  ['%', hexDigit (b / 16), hexDigit (b % 16)]

/-- `urllib.parse.quote(s)` with the default `safe="/"`: safe characters
pass through, every other character is replaced by the percent-encoding of
its UTF-8 bytes. -/
def quote (s : String) : String :=
  String.mk (s.data.flatMap fun c =>
    if isAlwaysSafe c ∨ c = '/' then [c]
    else (utf8EncodeChar c).flatMap percentByte)

/--
```python
def get_connection_uri():
    dbhost = os.environ["DBHOST"]
    dbname = os.environ["DBNAME"]
    dbuser = urllib.parse.quote(os.environ["DBUSER"])
    password = os.environ["DBPASSWORD"]
    sslmode = os.environ["SSLMODE"]
    db_uri = f"postgresql+psycopg://{dbuser}:{password}@{dbhost}/{dbname}?sslmode={sslmode}"
    return db_uri
```
-/
def get_connection_uri (env : Env) : Except ConfigError String := do
  let dbhost ← envGetE env "DBHOST"
  let dbname ← envGetE env "DBNAME"
  let dbuser0 ← envGetE env "DBUSER"
  let dbuser := quote dbuser0
  let password ← envGetE env "DBPASSWORD"
  let sslmode ← envGetE env "SSLMODE"
  pure ("postgresql+psycopg://" ++ dbuser ++ ":" ++ password ++ "@" ++ dbhost ++
    "/" ++ dbname ++ "?sslmode=" ++ sslmode)

/-- The `connection` value handed to `PGVector`:
`create_postgres_engine() if USE_ENTRA_AUTH else get_connection_uri()`. -/
inductive Connection where
  | engine (e : SAEngine)
  | uri (s : String)

def makeConnection (useEntraAuth : Bool) (env : Env) :
    Except ConfigError Connection :=
  if useEntraAuth then (create_postgres_engine env).map .engine
  else (get_connection_uri env).map .uri

/-- Number of connect-time hooks registered on a connection value. -/
def Connection.hookCount : Connection → Nat
  | .engine e => if e.doConnect.isSome then 1 else 0
  | .uri _ => 0

/-! ## URI parsing, as a consumer of the descriptor performs it

Models how a URI consumer (SQLAlchemy's `make_url`, psycopg, or any
RFC 3986 parser) recovers the password component: the authority is the
part after `://` up to the first `/`, `?` or `#`; the userinfo is the
authority up to the first `@`; the password is the userinfo after the
first `:`. -/

def afterScheme : List Char → Option (List Char)
  | [] => none
  | ':' :: '/' :: '/' :: rest => some rest
  | _ :: rest => afterScheme rest

def parsePassword (uri : String) : Option (List Char) :=
  match afterScheme uri.data with
  | none => none
  | some rest =>
      let authority := rest.takeWhile fun c => !(c = '/' ∨ c = '?' ∨ c = '#')
      if '@' ∈ authority then
        let userinfo := authority.takeWhile fun c => c != '@'
        if ':' ∈ userinfo then
          some ((userinfo.dropWhile fun c => c != ':').tail)
        else none
      else none

end AzurePG

namespace AzurePG

/-! ## Lemmas about the connection machinery -/

/-- The `do_connect` listener advances the credential state by exactly one
`get_token` call, whether or not extraction succeeds. -/
theorem provide_dynamic_credentials_snd (cred : TokenCredential) (ps : CParams) :
    (provide_dynamic_credentials cred ps).2 =
      { cred with fetches := cred.fetches + 1 } := by
  unfold provide_dynamic_credentials
  have h : get_token_and_username cred =
      (extractUsername (cred.tokens cred.fetches),
        { cred with fetches := cred.fetches + 1 }) := rfl
  rw [h]
  cases extractUsername (cred.tokens cred.fetches) with
  | ok p =>
    obtain ⟨u, t⟩ := p
    rfl
  | error e => rfl

/-- With the dynamic-credential hook registered, `n` physical connection
attempts make exactly `n` identity-provider calls. -/
theorem establishConnections_fetches (e : SAEngine)
    (he : e.doConnect = some provide_dynamic_credentials)
    (cred : TokenCredential) (n : Nat) :
    (establishConnections e cred n).2.fetches = cred.fetches + n := by
  induction n generalizing cred with
  | zero => rfl
  | succ m ih =>
    have h2 : (establishConnection e cred).2 =
        { cred with fetches := cred.fetches + 1 } := by
      unfold establishConnection
      rw [he]
      exact provide_dynamic_credentials_snd cred _
    show (establishConnections e (establishConnection e cred).2 m).2.fetches =
      cred.fetches + (m + 1)
    rw [h2, ih]
    dsimp only
    omega

/-- C2: in token mode the engine is built with empty-string username and
password, a `do_connect` hook is registered that overwrites the connect
parameters' user and password with the pair freshly resolved by
`get_token_and_username`, and the hook fires once per physical connection
establishment (n connections make n identity calls), not once per factory. -/
theorem c2_token_mode_dynamic_credentials (env : Env) (host database : String)
    (hh : envGet env "DBHOST" = some host)
    (hd : envGet env "DBNAME" = some database) :
    ∃ e, create_postgres_engine env = .ok e ∧
      e.url.username = "" ∧ e.url.password = "" ∧
      e.doConnect = some provide_dynamic_credentials ∧
      (∀ cred : TokenCredential,
        (establishConnection e cred).2.fetches = cred.fetches + 1 ∧
        ∀ fs u, decode_jwt (cred.tokens cred.fetches) = some (.obj fs) →
          dictGet fs "upn" = some u → pyTruthy u = true →
          (establishConnection e cred).1 =
            .ok (dictSet (dictSet (defaultCParams e.url) "user" u) "password"
              (.str (cred.tokens cred.fetches)))) ∧
      (∀ (cred : TokenCredential) (n : Nat),
        (establishConnections e cred n).2.fetches = cred.fetches + n) := by
  refine ⟨⟨⟨"postgresql+psycopg", "", "", host,
      (envGet env "DBPORT").getD "5432", database⟩, true,
      some provide_dynamic_credentials⟩, ?_, rfl, rfl, rfl, ?_,
    establishConnections_fetches _ rfl⟩
  · unfold create_postgres_engine envGetE
    rw [hh, hd]
    rfl
  · intro cred
    constructor
    · show (provide_dynamic_credentials cred _).2.fetches = cred.fetches + 1
      rw [provide_dynamic_credentials_snd]
    · intro fs u hdec hupn htr
      show (provide_dynamic_credentials cred _).1 = _
      unfold provide_dynamic_credentials
      have h : get_token_and_username cred =
          (extractUsername (cred.tokens cred.fetches),
            { cred with fetches := cred.fetches + 1 }) := rfl
      rw [h, extractUsername_ok _ fs u hdec hupn htr]

/-- Witness for C2: a two-entry environment; the engine is built, and two
connection attempts on a fresh credential make exactly two token fetches. -/
theorem c2_token_mode_dynamic_credentials_witness :
    ∃ e, create_postgres_engine [("DBHOST", "h"), ("DBNAME", "d")] = .ok e ∧
      e.url.username = "" ∧ e.url.password = "" ∧
      e.doConnect = some provide_dynamic_credentials ∧
      (∀ cred : TokenCredential,
        (establishConnection e cred).2.fetches = cred.fetches + 1 ∧
        ∀ fs u, decode_jwt (cred.tokens cred.fetches) = some (.obj fs) →
          dictGet fs "upn" = some u → pyTruthy u = true →
          (establishConnection e cred).1 =
            .ok (dictSet (dictSet (defaultCParams e.url) "user" u) "password"
              (.str (cred.tokens cred.fetches)))) ∧
      (∀ (cred : TokenCredential) (n : Nat),
        (establishConnections e cred n).2.fetches = cred.fetches + n) :=
  c2_token_mode_dynamic_credentials [("DBHOST", "h"), ("DBNAME", "d")]
    "h" "d" rfl rfl

/-- C6: a configuration missing the host or the database name makes both
constructors fail with the configuration error, and one missing the
username or the password makes the static-mode constructor fail — in each
case before any credential resolution or network attempt (the constructors
never touch a `TokenCredential`). -/
theorem c6_missing_config_fails_fast (env : Env) :
    ((envGet env "DBHOST" = none ∨ envGet env "DBNAME" = none) →
      create_postgres_engine env = .error .configurationError ∧
      get_connection_uri env = .error .configurationError) ∧
    ((envGet env "DBUSER" = none ∨ envGet env "DBPASSWORD" = none) →
      get_connection_uri env = .error .configurationError) := by
  constructor
  · intro h
    constructor
    · unfold create_postgres_engine envGetE
      rcases hh : envGet env "DBHOST" with _ | host
      · rfl
      · rcases hd : envGet env "DBNAME" with _ | db
        · rfl
        · exfalso
          rcases h with h | h
          · rw [hh] at h; exact nomatch h
          · rw [hd] at h; exact nomatch h
    · unfold get_connection_uri envGetE
      rcases hh : envGet env "DBHOST" with _ | host
      · rfl
      · rcases hd : envGet env "DBNAME" with _ | db
        · rfl
        · exfalso
          rcases h with h | h
          · rw [hh] at h; exact nomatch h
          · rw [hd] at h; exact nomatch h
  · intro h
    unfold get_connection_uri envGetE
    rcases hh : envGet env "DBHOST" with _ | host
    · rfl
    · rcases hd : envGet env "DBNAME" with _ | db
      · rfl
      · rcases hu : envGet env "DBUSER" with _ | user
        · rfl
        · rcases hp : envGet env "DBPASSWORD" with _ | pass
          · rfl
          · exfalso
            rcases h with h | h
            · rw [hu] at h; exact nomatch h
            · rw [hp] at h; exact nomatch h

/-- Witness for C6: an environment carrying only the host fails token-mode
construction (missing database name), and one carrying host and database
fails static-mode construction (missing username). -/
theorem c6_missing_config_fails_fast_witness :
    (create_postgres_engine [("DBHOST", "h")] = .error .configurationError ∧
      get_connection_uri [("DBHOST", "h")] = .error .configurationError) ∧
    get_connection_uri [("DBHOST", "h"), ("DBNAME", "d")] =
      .error .configurationError :=
  ⟨(c6_missing_config_fails_fast [("DBHOST", "h")]).1 (.inr rfl),
    (c6_missing_config_fails_fast [("DBHOST", "h"), ("DBNAME", "d")]).2
      (.inl rfl)⟩

end AzurePG

namespace AzurePG

/-- With the five static-mode options present, `get_connection_uri` builds
the descriptor with the username percent-encoded and the password verbatim. -/
theorem get_connection_uri_ok (env : Env) (host db user pass ssl : String)
    (hh : envGet env "DBHOST" = some host)
    (hd : envGet env "DBNAME" = some db)
    (hu : envGet env "DBUSER" = some user)
    (hp : envGet env "DBPASSWORD" = some pass)
    (hs : envGet env "SSLMODE" = some ssl) :
    get_connection_uri env =
      .ok ("postgresql+psycopg://" ++ quote user ++ ":" ++ pass ++ "@" ++
        host ++ "/" ++ db ++ "?sslmode=" ++ ssl) := by
  unfold get_connection_uri envGetE
  rw [hh, hd, hu, hp, hs]
  rfl

/-- C8: in static mode the connection value is the fixed URI built from the
configured host, database, username, password and transport-security mode,
with the username percent-encoded before embedding, and no connect-time
hook is registered on it. -/
theorem c8_static_mode_fixed_uri (env : Env) (host db user pass ssl : String)
    (hh : envGet env "DBHOST" = some host)
    (hd : envGet env "DBNAME" = some db)
    (hu : envGet env "DBUSER" = some user)
    (hp : envGet env "DBPASSWORD" = some pass)
    (hs : envGet env "SSLMODE" = some ssl) :
    makeConnection false env =
      .ok (.uri ("postgresql+psycopg://" ++ quote user ++ ":" ++ pass ++ "@" ++
        host ++ "/" ++ db ++ "?sslmode=" ++ ssl)) ∧
    ∀ conn, makeConnection false env = .ok conn → conn.hookCount = 0 := by
  have hmk : makeConnection false env =
      .ok (.uri ("postgresql+psycopg://" ++ quote user ++ ":" ++ pass ++ "@" ++
        host ++ "/" ++ db ++ "?sslmode=" ++ ssl)) := by
    have h1 : makeConnection false env = (get_connection_uri env).map .uri := rfl
    rw [h1, get_connection_uri_ok env host db user pass ssl hh hd hu hp hs]
    rfl
  refine ⟨hmk, ?_⟩
  intro conn hconn
  rw [hmk] at hconn
  cases hconn
  rfl

/-- Witness for C8: a concrete five-entry environment; the quoted username
`u` is itself, and the connection value is the bare URI with no hook. -/
theorem c8_static_mode_fixed_uri_witness :
    makeConnection false
        [("DBHOST", "h"), ("DBNAME", "d"), ("DBUSER", "u"),
          ("DBPASSWORD", "p"), ("SSLMODE", "require")] =
      .ok (.uri "postgresql+psycopg://u:p@h/d?sslmode=require") ∧
    ∀ conn,
      makeConnection false
          [("DBHOST", "h"), ("DBNAME", "d"), ("DBUSER", "u"),
            ("DBPASSWORD", "p"), ("SSLMODE", "require")] =
        .ok conn → conn.hookCount = 0 :=
  c8_static_mode_fixed_uri
    [("DBHOST", "h"), ("DBNAME", "d"), ("DBUSER", "u"),
      ("DBPASSWORD", "p"), ("SSLMODE", "require")]
    "h" "d" "u" "p" "require" rfl rfl rfl rfl rfl

/-- A password recovered by the URI consumer's parse contains neither `@`
nor `/`: it is cut from the authority (which stops at the first `/`) before
the first `@`. -/
theorem parsePassword_no_reserved (uri : String) (cs : List Char)
    (h : parsePassword uri = some cs) :
    ∀ c ∈ cs, c ≠ '@' ∧ c ≠ '/' := by
  unfold parsePassword at h
  rcases ha : afterScheme uri.data with _ | rest
  · rw [ha] at h
    exact nomatch h
  · rw [ha] at h
    dsimp only at h
    by_cases h1 : '@' ∈ rest.takeWhile fun c => !(c = '/' ∨ c = '?' ∨ c = '#')
    · rw [if_pos h1] at h
      by_cases h2 : ':' ∈ (rest.takeWhile fun c =>
          !(c = '/' ∨ c = '?' ∨ c = '#')).takeWhile fun c => c != '@'
      · rw [if_pos h2] at h
        cases h
        intro c hc
        have hui : c ∈ (rest.takeWhile fun c =>
            !(c = '/' ∨ c = '?' ∨ c = '#')).takeWhile fun c => c != '@' :=
          ((List.tail_sublist _).trans (List.dropWhile_sublist _)).subset hc
        have hat := List.mem_takeWhile_imp hui
        have hauth : c ∈ rest.takeWhile fun c => !(c = '/' ∨ c = '?' ∨ c = '#') :=
          (List.takeWhile_sublist _).subset hui
        have hsl := List.mem_takeWhile_imp hauth
        refine ⟨by simpa using hat, ?_⟩
        simp only [Bool.not_eq_eq_eq_not, Bool.not_true, decide_eq_false_iff_not] at hsl
        intro hcs
        exact hsl (Or.inl hcs)
      · rw [if_neg h2] at h
        exact nomatch h
    · rw [if_neg h1] at h
      exact nomatch h

/-- C10: in static mode the password is embedded in the descriptor
verbatim (only the username is percent-encoded), so for every password
containing a URI-reserved `@` or `/` the produced descriptor does not
round-trip to the configured password under URI parsing. -/
theorem c10_password_no_roundtrip (env : Env) (host db user pass ssl : String)
    (hh : envGet env "DBHOST" = some host)
    (hd : envGet env "DBNAME" = some db)
    (hu : envGet env "DBUSER" = some user)
    (hp : envGet env "DBPASSWORD" = some pass)
    (hs : envGet env "SSLMODE" = some ssl) :
    get_connection_uri env =
      .ok ("postgresql+psycopg://" ++ quote user ++ ":" ++ pass ++ "@" ++
        host ++ "/" ++ db ++ "?sslmode=" ++ ssl) ∧
    (('@' ∈ pass.data ∨ '/' ∈ pass.data) →
      ∀ uri, get_connection_uri env = .ok uri →
        parsePassword uri ≠ some pass.data) := by
  refine ⟨get_connection_uri_ok env host db user pass ssl hh hd hu hp hs, ?_⟩
  intro hres uri huri hpp
  rcases hres with hres | hres
  · exact (parsePassword_no_reserved uri pass.data hpp '@' hres).1 rfl
  · exact (parsePassword_no_reserved uri pass.data hpp '/' hres).2 rfl

/-- Witness for C10: a password `p@ss` containing `@`; the descriptor is
built with it verbatim, and parsing the descriptor back does not recover
it. -/
theorem c10_password_no_roundtrip_witness :
    get_connection_uri
        [("DBHOST", "h"), ("DBNAME", "d"), ("DBUSER", "u"),
          ("DBPASSWORD", "p@ss"), ("SSLMODE", "require")] =
      .ok "postgresql+psycopg://u:p@ss@h/d?sslmode=require" ∧
    parsePassword "postgresql+psycopg://u:p@ss@h/d?sslmode=require" ≠
      some "p@ss".data := by
  have h := c10_password_no_roundtrip
    [("DBHOST", "h"), ("DBNAME", "d"), ("DBUSER", "u"),
      ("DBPASSWORD", "p@ss"), ("SSLMODE", "require")]
    "h" "d" "u" "p@ss" "require" rfl rfl rfl rfl rfl
  exact ⟨h.1, h.2 (Or.inl (by decide)) _ h.1⟩

end AzurePG

namespace AzurePG

/-! ## Filter compilation and the vector store

The deciding code for the remaining claims lives in the external
`langchain_postgres` package (`PGVector._create_filter_clause`,
`_handle_field_filter`, `add_documents`, `similarity_search`), which is not
part of this repository's sources; the definitions below are built from the
design specification (§3, §4.3, §4.4) instead, mirroring the wire format
the notebook exercises. -/

/-! Structural equality of JSON values, as the storage engine compares a
stored metadata value with a query operand (no implicit coercion between
types). -/

mutual

def jsonEq : JsonVal → JsonVal → Bool
  | .null, .null => true
  | .bool x, .bool y => x == y
  | .num x, .num y => x == y
  | .str x, .str y => x == y
  | .arr xs, .arr ys => jsonEqL xs ys
  | .obj xs, .obj ys => jsonEqO xs ys
  | _, _ => false

def jsonEqL : List JsonVal → List JsonVal → Bool
  | [], [] => true
  | x :: xs, y :: ys => jsonEq x y && jsonEqL xs ys
  | _, _ => false

def jsonEqO : List (String × JsonVal) → List (String × JsonVal) → Bool
  | [], [] => true
  | (k, v) :: xs, (k', v') :: ys => k == k' && jsonEq v v' && jsonEqO xs ys
  | _, _ => false

end

/-! Nesting depth of a JSON value, bounding the combinator recursion of
the filter compiler. -/

mutual

def jsonDepth : JsonVal → Nat
  | .arr xs => jsonDepthL xs + 1
  | .obj fs => jsonDepthO fs + 1
  | _ => 1

def jsonDepthL : List JsonVal → Nat
  | [] => 0
  | x :: xs => max (jsonDepth x) (jsonDepthL xs)

def jsonDepthO : List (String × JsonVal) → Nat
  | [] => 0
  | (_, v) :: fs => max (jsonDepth v) (jsonDepthO fs)

end

/-- Ordering on values of like type; `none` on a type mismatch (the spec
forbids implicit coercion, so a mismatched comparison selects nothing). -/
def jsonLe : JsonVal → JsonVal → Option Bool
  | .num a, .num b => some (a ≤ b)
  | .str a, .str b => some (a ≤ b)
  | _, _ => none

def jsonLt : JsonVal → JsonVal → Option Bool
  | .num a, .num b => some (a < b)
  | .str a, .str b => some (a < b)
  | _, _ => none

/-- SQL `LIKE` pattern matching (`%` any run, `_` any one character),
fuel-bounded for structural recursion. -/
def likeMatchF : Nat → List Char → List Char → Bool
  | 0, _, _ => false
  | _ + 1, [], [] => true
  | _ + 1, [], _ :: _ => false
  | f + 1, '%' :: ps, ts =>
      likeMatchF f ps ts ||
        (match ts with
         | [] => false
         | _ :: ts' => likeMatchF f ('%' :: ps) ts')
  | f + 1, '_' :: ps, ts =>
      match ts with
      | [] => false
      | _ :: ts' => likeMatchF f ps ts'
  | f + 1, p :: ps, ts =>
      match ts with
      | [] => false
      | t :: ts' => p == t && likeMatchF f ps ts'

def likeMatch (pat text : List Char) : Bool :=
  likeMatchF (pat.length + text.length + 1) pat text

def strLower (s : String) : String :=
  String.mk (s.data.map Char.toLower)

/-- Python's `key.startswith("$")`, distinguishing operator keys from field
names in the filter wire format. -/
def startsWithDollar (s : String) : Bool :=
  match s.data with
  | [] => false
  | c :: _ => c = '$'

/-- Modelled from the spec: the compile-time failure of the filter
compiler (`InvalidFilterError`): unknown operators, type-mismatched
operands, malformed combinator nodes. -/
inductive FilterError where
  | invalidFilter
  deriving Repr, DecidableEq

abbrev Metadata := List (String × JsonVal)

abbrev Pred := Metadata → Bool

/-- Modelled from the spec: operand validity for a leaf operator — set
operators require a list, `between` a 2-element pair, pattern operators a
string; comparison/equality operators accept any value. -/
def opValid (op : String) (fv : JsonVal) : Bool :=
  if op = "$eq" ∨ op = "$ne" ∨ op = "$lt" ∨ op = "$lte" ∨ op = "$gt" ∨
      op = "$gte" then true
  else if op = "$in" ∨ op = "$nin" then
    match fv with
    | .arr _ => true
    | _ => false
  else if op = "$between" then
    match fv with
    | .arr [_, _] => true
    | _ => false
  else if op = "$like" ∨ op = "$ilike" then
    match fv with
    | .str _ => true
    | _ => false
  else false

/-- Modelled from the spec: evaluation of one leaf predicate against the
stored metadata value of the named field (absent field selects nothing;
no coercion between stored and query types). -/
def evalOp (op : String) (fv : JsonVal) (stored : Option JsonVal) : Bool :=
  match stored with
  | none => false
  | some sv =>
      if op = "$eq" then jsonEq sv fv
      else if op = "$ne" then !jsonEq sv fv
      else if op = "$lt" then (jsonLt sv fv).getD false
      else if op = "$lte" then (jsonLe sv fv).getD false
      else if op = "$gt" then (jsonLt fv sv).getD false
      else if op = "$gte" then (jsonLe fv sv).getD false
      else if op = "$in" then
        match fv with
        | .arr xs => xs.any (jsonEq sv)
        | _ => false
      else if op = "$nin" then
        match fv with
        | .arr xs => !xs.any (jsonEq sv)
        | _ => false
      else if op = "$between" then
        match fv with
        | .arr [a, b] => (jsonLe a sv).getD false && (jsonLe sv b).getD false
        | _ => false
      else if op = "$like" then
        match sv, fv with
        | .str s, .str pat => likeMatch pat.data s.data
        | _, _ => false
      else if op = "$ilike" then
        match sv, fv with
        | .str s, .str pat => likeMatch (strLower pat).data (strLower s).data
        | _, _ => false
      else false

def compileLeaf (field op : String) (fv : JsonVal) : Except FilterError Pred :=
  if opValid op fv then .ok (fun md => evalOp op fv (dictGet md field))
  else .error .invalidFilter

/-- Modelled from the spec: `_handle_field_filter` — a field mapped to a
non-dict value is an equality leaf; a field mapped to a dict must carry
exactly one operator entry. -/
def handle_field_filter (field : String) (value : JsonVal) :
    Except FilterError Pred :=
  match value with
  | .obj [(op, fv)] => compileLeaf field op fv
  | .obj _ => .error .invalidFilter
  | v => compileLeaf field "$eq" v

/-- Modelled from the spec: the conjunction/disjunction of compiled child
predicates (short-circuiting not required; the storage engine evaluates). -/
def andPred (ps : List Pred) : Pred :=
  fun md => ps.all fun p => p md

def orPred (ps : List Pred) : Pred :=
  fun md => ps.any fun p => p md

/-- Left-to-right fallible map: the first failing element's error, as a
Python loop raising on the first bad child. -/
def mapExcept {α β : Type} (g : α → Except FilterError β) :
    List α → Except FilterError (List β)
  | [] => .ok []
  | x :: xs =>
      match g x with
      | .error e => .error e
      | .ok b =>
          match mapExcept g xs with
          | .error e => .error e
          | .ok bs => .ok (b :: bs)

/-- Modelled from the spec (§4.3) and the filter wire format the notebook
exercises (the compiler itself lives in `langchain_postgres`, outside this
repository's sources): a single `$`-key dict is a combinator (`$and`/`$or`
over a non-empty child list; anything else is invalid); a single
field-key dict is one field filter; a multi-key dict with no `$` keys is
the bare-mapping sugar, an implicit AND of its field filters; everything
else is invalid.  `fuel` bounds combinator nesting (field branches consume
none). -/
def compileFilterF : Nat → JsonVal → Except FilterError Pred
  | _, .obj [] => .error .invalidFilter
  | fuel, .obj [(k, v)] =>
      if startsWithDollar k then
        match fuel with
        | 0 => .error .invalidFilter
        | f + 1 =>
            if k = "$and" ∨ k = "$or" then
              match v with
              | .arr [] => .error .invalidFilter
              | .arr cs =>
                  match mapExcept (compileFilterF f) cs with
                  | .ok ps => .ok (if k = "$and" then andPred ps else orPred ps)
                  | .error e => .error e
              | _ => .error .invalidFilter
            else .error .invalidFilter
      else handle_field_filter k v
  | _, .obj fs =>
      if fs.any fun kv => startsWithDollar kv.1 then .error .invalidFilter
      else
        match mapExcept (fun kv => handle_field_filter kv.1 kv.2) fs with
        | .ok ps => .ok (andPred ps)
        | .error e => .error e
  | _, _ => .error .invalidFilter

def compileFilter (f : JsonVal) : Except FilterError Pred :=
  compileFilterF (jsonDepth f + 1) f

/-- The explicit form of a bare mapping: a single top-level `$and` whose
children wrap each field's condition, operator-free values becoming `$eq`
leaves. -/
def wrapEq (v : JsonVal) : JsonVal :=
  match v with
  | .obj _ => v
  | _ => .obj [("$eq", v)]

def explicitOf (fs : List (String × JsonVal)) : JsonVal :=
  .obj [("$and", .arr (fs.map fun kv => .obj [(kv.1, wrapEq kv.2)]))]

/-- Compilation results agree: same error, or predicates equal on every
metadata row. -/
def predEquivE : Except FilterError Pred → Except FilterError Pred → Prop
  | .ok p, .ok q => ∀ md, p md = q md
  | .error e, .error e' => e = e'
  | _, _ => False

/-! ## The vector store (modelled from the spec, §3/§4.4) -/

/-- Modelled from the spec: a stored document row — id (upsert key),
content, metadata, embedding. -/
structure Document where
  id : String
  content : String
  metadata : Metadata
  embedding : List Int

/-- Squared Euclidean distance between embeddings (the collection's
configured metric determines ranking; L2 here). -/
def sqDist : List Int → List Int → Int
  | [], [] => 0
  | x :: xs, y :: ys => (x - y) * (x - y) + sqDist xs ys
  | _, _ => 0

/-- Stable best-first insertion by distance to the query embedding. -/
def insertByDist (q : List Int) (d : Document) : List Document → List Document
  | [] => [d]
  | e :: es =>
      if sqDist q d.embedding ≤ sqDist q e.embedding then d :: e :: es
      else e :: insertByDist q d es

def sortByDist (q : List Int) (docs : List Document) : List Document :=
  docs.foldr (insertByDist q) []

/-- Modelled from the spec: upsert of one document — an existing row with
the same id is overwritten (content, metadata, embedding), otherwise the
row is appended. -/
def upsertDoc (store : List Document) (d : Document) : List Document :=
  if store.any fun e => e.id == d.id then
    store.map fun e => if e.id == d.id then d else e
  else store ++ [d]

/-- Modelled from the spec: `addDocuments` with caller-supplied ids — each
document is upserted under its id in order. -/
def addDocuments (store : List Document) (docs : List Document) :
    List Document :=
  docs.foldl upsertDoc store

/-- Modelled from the spec: `similaritySearch` — the query embedding is
produced by the external embedder (passed in here), the filter is compiled,
and the k nearest matching rows are returned best-first. -/
def similaritySearch (store : List Document) (qEmb : List Int) (k : Nat)
    (filter : Option JsonVal) : Except FilterError (List Document) :=
  match filter with
  | none => .ok ((sortByDist qEmb store).take k)
  | some f =>
      match compileFilter f with
      | .ok p => .ok (((sortByDist qEmb store).filter fun d => p d.metadata).take k)
      | .error e => .error e

end AzurePG

namespace AzurePG

/-! ## Equivalence of the bare mapping and its explicit `$and` form -/

theorem handle_field_filter_wrapEq (k : String) (v : JsonVal) :
    handle_field_filter k (wrapEq v) = handle_field_filter k v := by
  cases v <;> rfl

theorem compileFilterF_single (n : Nat) (k : String) (v : JsonVal)
    (h : startsWithDollar k = false) :
    compileFilterF n (.obj [(k, v)]) = handle_field_filter k v := by
  unfold compileFilterF
  rw [h]
  rfl

theorem mapExcept_wrapped (n : Nat) (fs : List (String × JsonVal))
    (hnd : ∀ kv ∈ fs, startsWithDollar kv.1 = false) :
    mapExcept (compileFilterF n)
        (fs.map fun kv => JsonVal.obj [(kv.1, wrapEq kv.2)]) =
      mapExcept (fun kv => handle_field_filter kv.1 kv.2) fs := by
  induction fs with
  | nil => rfl
  | cons a fs ih =>
    have ha : startsWithDollar a.1 = false := hnd a (by simp)
    have hrest : ∀ kv ∈ fs, startsWithDollar kv.1 = false :=
      fun kv h => hnd kv (by simp [h])
    simp only [List.map_cons, mapExcept, compileFilterF_single n a.1 (wrapEq a.2) ha,
      handle_field_filter_wrapEq, ih hrest]

theorem compileFilter_explicitOf (fs : List (String × JsonVal))
    (hne : fs ≠ [])
    (hnd : ∀ kv ∈ fs, startsWithDollar kv.1 = false) :
    compileFilter (explicitOf fs) =
      match mapExcept (fun kv => handle_field_filter kv.1 kv.2) fs with
      | .ok ps => .ok (andPred ps)
      | .error e => .error e := by
  cases fs with
  | nil => exact absurd rfl hne
  | cons a fs =>
    have h1 : compileFilter (explicitOf (a :: fs)) =
        match mapExcept (compileFilterF (jsonDepth (explicitOf (a :: fs))))
            ((a :: fs).map fun kv => JsonVal.obj [(kv.1, wrapEq kv.2)]) with
        | .ok ps => .ok (andPred ps)
        | .error e => .error e := rfl
    rw [h1, mapExcept_wrapped _ _ hnd]

theorem compileFilter_bare_multi (a b : String × JsonVal)
    (rest : List (String × JsonVal))
    (hnd : ∀ kv ∈ a :: b :: rest, startsWithDollar kv.1 = false) :
    compileFilter (.obj (a :: b :: rest)) =
      match mapExcept (fun kv => handle_field_filter kv.1 kv.2)
          (a :: b :: rest) with
      | .ok ps => .ok (andPred ps)
      | .error e => .error e := by
  have hany : (a :: b :: rest).any (fun kv => startsWithDollar kv.1) = false := by
    rw [List.any_eq_false]
    intro x hx
    simp [hnd x hx]
  show compileFilterF _ (.obj (a :: b :: rest)) = _
  unfold compileFilterF
  rw [hany]
  rfl

/-- C3: a bare mapping filter (fields to operator-free values or operator
leaves, no top-level logical key) compiles to the same outcome as the
explicit single top-level `$and` of the per-field conditions — identical
error, or predicates agreeing on every metadata row — and similarity
search returns the same ordered results with either form. -/
theorem c3_bare_mapping_is_and (fs : List (String × JsonVal))
    (hne : fs ≠ [])
    (hnd : ∀ kv ∈ fs, startsWithDollar kv.1 = false) :
    predEquivE (compileFilter (.obj fs)) (compileFilter (explicitOf fs)) ∧
    ∀ (store : List Document) (qEmb : List Int) (k : Nat),
      similaritySearch store qEmb k (some (.obj fs)) =
        similaritySearch store qEmb k (some (explicitOf fs)) := by
  have hexp := compileFilter_explicitOf fs hne hnd
  have hequiv : predEquivE (compileFilter (.obj fs))
      (compileFilter (explicitOf fs)) := by
    cases fs with
    | nil => exact absurd rfl hne
    | cons a fs' =>
      cases fs' with
      | nil =>
        obtain ⟨k, v⟩ := a
        have hk : startsWithDollar k = false := hnd (k, v) (by simp)
        have hb : compileFilter (.obj [(k, v)]) = handle_field_filter k v :=
          compileFilterF_single _ k v hk
        cases hf : handle_field_filter k v with
        | ok p =>
          have hm : mapExcept (fun kv => handle_field_filter kv.1 kv.2)
              [(k, v)] = .ok [p] := by
            simp [mapExcept, hf]
          rw [hexp, hm, hb, hf]
          intro md
          simp [andPred]
        | error e =>
          have hm : mapExcept (fun kv => handle_field_filter kv.1 kv.2)
              [(k, v)] = .error e := by
            simp [mapExcept, hf]
          rw [hexp, hm, hb, hf]
          rfl
      | cons b rest =>
        rw [hexp, compileFilter_bare_multi a b rest hnd]
        cases mapExcept (fun kv => handle_field_filter kv.1 kv.2)
            (a :: b :: rest) with
        | ok ps =>
          intro md
          rfl
        | error e => rfl
  refine ⟨hequiv, ?_⟩
  intro store qEmb k
  unfold similaritySearch
  dsimp only
  cases hc1 : compileFilter (.obj fs) with
  | ok p =>
    cases hc2 : compileFilter (explicitOf fs) with
    | ok q =>
      rw [hc1, hc2] at hequiv
      have hpq : ∀ md, p md = q md := hequiv
      have hfil : ((sortByDist qEmb store).filter fun d => p d.metadata) =
          (sortByDist qEmb store).filter fun d => q d.metadata :=
        List.filter_congr fun d _ => hpq d.metadata
      dsimp only
      rw [hfil]
    | error e =>
      rw [hc1, hc2] at hequiv
      exact absurd hequiv (by simp [predEquivE])
  | error e =>
    cases hc2 : compileFilter (explicitOf fs) with
    | ok q =>
      rw [hc1, hc2] at hequiv
      exact absurd hequiv (by simp [predEquivE])
    | error e' =>
      rw [hc1, hc2] at hequiv

end AzurePG

namespace AzurePG

/-- The multi-field filter from the notebook's similarity-search examples. -/
def exampleBareFilter : List (String × JsonVal) :=
  [("id", .obj [("$in", .arr [.num 1, .num 5, .num 2, .num 9])]),
   ("location", .obj [("$in", .arr [.str "pond", .str "market"])])]

/-- Witness for C3: the notebook's two-field `$in` filter, bare versus
explicit `$and`. -/
theorem c3_bare_mapping_is_and_witness :
    predEquivE (compileFilter (.obj exampleBareFilter))
      (compileFilter (explicitOf exampleBareFilter)) ∧
    ∀ (store : List Document) (qEmb : List Int) (k : Nat),
      similaritySearch store qEmb k (some (.obj exampleBareFilter)) =
        similaritySearch store qEmb k (some (explicitOf exampleBareFilter)) :=
  c3_bare_mapping_is_and exampleBareFilter (List.cons_ne_nil _ _) (by decide)

/-! ## Upsert semantics of the store -/

theorem mem_insertByDist (q : List Int) (d a : Document) (l : List Document) :
    a ∈ insertByDist q d l ↔ a = d ∨ a ∈ l := by
  induction l with
  | nil => simp [insertByDist]
  | cons e es ih =>
    by_cases h : sqDist q d.embedding ≤ sqDist q e.embedding
    · simp [insertByDist, h]
    · simp only [insertByDist, if_neg h, List.mem_cons, ih]
      tauto

theorem mem_sortByDist (q : List Int) (a : Document) (docs : List Document) :
    a ∈ sortByDist q docs ↔ a ∈ docs := by
  induction docs with
  | nil => simp [sortByDist]
  | cons d ds ih =>
    show a ∈ insertByDist q d (sortByDist q ds) ↔ _
    rw [mem_insertByDist]
    simp [ih, List.mem_cons]

theorem upsertDoc_overwrites (s : List Document) (d : Document) :
    ∀ e ∈ upsertDoc s d, e.id = d.id → e = d := by
  intro e he heq
  unfold upsertDoc at he
  by_cases h : s.any fun x => x.id == d.id
  · rw [if_pos h] at he
    obtain ⟨x, hx, hxe⟩ := List.mem_map.1 he
    by_cases h2 : x.id == d.id
    · rw [if_pos h2] at hxe
      exact hxe.symm
    · rw [if_neg h2] at hxe
      cases hxe
      exact absurd (beq_iff_eq.mpr heq) h2
  · rw [if_neg h] at he
    rcases List.mem_append.1 he with h1 | h1
    · exfalso
      rw [Bool.not_eq_true, List.any_eq_false] at h
      exact absurd (beq_iff_eq.mpr heq) (by simpa using h e h1)
    · simpa using h1

theorem upsertDoc_mem_id (s : List Document) (d : Document) :
    ∃ e ∈ upsertDoc s d, e.id = d.id := by
  unfold upsertDoc
  by_cases h : s.any fun x => x.id == d.id
  · rw [if_pos h]
    obtain ⟨x, hx, hxb⟩ := List.any_eq_true.1 h
    exact ⟨d, List.mem_map.2 ⟨x, hx, by rw [if_pos hxb]⟩, rfl⟩
  · rw [if_neg h]
    exact ⟨d, List.mem_append.2 (Or.inr (by simp)), rfl⟩

theorem upsertDoc_length (s : List Document) (d : Document)
    (h : ∃ e ∈ s, e.id = d.id) :
    (upsertDoc s d).length = s.length := by
  obtain ⟨e, he, heq⟩ := h
  have hany : (s.any fun x => x.id == d.id) = true :=
    List.any_eq_true.2 ⟨e, he, beq_iff_eq.mpr heq⟩
  unfold upsertDoc
  rw [if_pos hany]
  exact List.length_map _ _

theorem similaritySearch_subset (store : List Document) (qEmb : List Int)
    (k : Nat) (filter : Option JsonVal) (res : List Document)
    (h : similaritySearch store qEmb k filter = .ok res) :
    ∀ e ∈ res, e ∈ store := by
  intro e he
  unfold similaritySearch at h
  cases filter with
  | none =>
    cases h
    exact (mem_sortByDist qEmb e store).1 (List.mem_of_mem_take he)
  | some f =>
    dsimp only at h
    cases hc : compileFilter f with
    | ok p =>
      rw [hc] at h
      dsimp only at h
      cases h
      have h3 := List.mem_of_mem_take he
      exact (mem_sortByDist qEmb e store).1 (List.mem_filter.1 h3).1
    | error e' =>
      rw [hc] at h
      exact nomatch h

/-- C7: re-adding a document under an existing id overwrites the stored
content, metadata and embedding, leaves the number of stored documents
unchanged, and every subsequent search result carrying that id shows only
the latest content. -/
theorem c7_upsert_same_id (store : List Document) (d1 d2 : Document)
    (hid : d1.id = d2.id) :
    (addDocuments (addDocuments store [d1]) [d2]).length =
      (addDocuments store [d1]).length ∧
    (∀ e ∈ addDocuments (addDocuments store [d1]) [d2],
      e.id = d2.id → e = d2) ∧
    (∀ (qEmb : List Int) (k : Nat) (filter : Option JsonVal)
        (res : List Document),
      similaritySearch (addDocuments (addDocuments store [d1]) [d2]) qEmb k
          filter = .ok res →
      ∀ e ∈ res, e.id = d2.id → e.content = d2.content) := by
  have h2 : addDocuments (addDocuments store [d1]) [d2] =
      upsertDoc (upsertDoc store d1) d2 := rfl
  refine ⟨?_, ?_, ?_⟩
  · rw [h2]
    apply upsertDoc_length
    obtain ⟨e, he, heq⟩ := upsertDoc_mem_id store d1
    exact ⟨e, he, by rw [heq, hid]⟩
  · rw [h2]
    exact upsertDoc_overwrites _ _
  · intro qEmb k filter res hres e he heq
    have hmem : e ∈ upsertDoc (upsertDoc store d1) d2 := by
      rw [← h2]
      exact similaritySearch_subset _ _ _ _ _ hres e he
    rw [upsertDoc_overwrites _ _ e hmem heq]

/-- Witness for C7: overwriting the document with id `10`, as the
notebook's update cell does. -/
theorem c7_upsert_same_id_witness :
    (addDocuments (addDocuments []
        [⟨"10", "cooking class", [("id", .num 10)], [1, 2]⟩])
        [⟨"10", "Updated - cooking class", [("id", .num 10)], [3, 4]⟩]).length =
      (addDocuments []
        [⟨"10", "cooking class", [("id", .num 10)], [1, 2]⟩]).length ∧
    (∀ e ∈ addDocuments (addDocuments []
        [⟨"10", "cooking class", [("id", .num 10)], [1, 2]⟩])
        [⟨"10", "Updated - cooking class", [("id", .num 10)], [3, 4]⟩],
      e.id = "10" →
        e = ⟨"10", "Updated - cooking class", [("id", .num 10)], [3, 4]⟩) ∧
    (∀ (qEmb : List Int) (k : Nat) (filter : Option JsonVal)
        (res : List Document),
      similaritySearch (addDocuments (addDocuments []
          [⟨"10", "cooking class", [("id", .num 10)], [1, 2]⟩])
          [⟨"10", "Updated - cooking class", [("id", .num 10)], [3, 4]⟩])
        qEmb k filter = .ok res →
      ∀ e ∈ res, e.id = "10" → e.content = "Updated - cooking class") :=
  c7_upsert_same_id []
    ⟨"10", "cooking class", [("id", .num 10)], [1, 2]⟩
    ⟨"10", "Updated - cooking class", [("id", .num 10)], [3, 4]⟩ rfl

end AzurePG
